import Mathlib

/-!
Verification of the MLEM reconstruction wrapper (mlem/mlem_reconstruct.py).

Strings are modelled as lists of characters, the file system as an oracle
function, observable side effects (prints, process exit, the foreign call
into the C reconstruction engine) as an explicit event list, and the
external C engine itself as an uninterpreted function argument.  Numeric
values travel through the wrapper unchanged, so they are modelled as
rationals.
-/

/-- Strings of the modelled program: lists of characters. -/
abbrev Str := List Char

/-- Python str.split(sep) for a single-character separator: keeps empty
fields, and splitting the empty string yields a singleton empty field. -/
def splitChar (c : Char) : Str → List Str
  | [] => [[]]
  | a :: as =>
      if a = c then [] :: splitChar c as
      else
        match splitChar c as with
        | [] => [[a]]
        | s :: ss => (a :: s) :: ss

/-- The directory path derived from the output file name stem in
reconstruct: split on the path separator, drop the last component, and
re-join every remaining component followed by a separator (empty
components contribute only the separator). -/
def folderPath (p : Str) : Str :=
  ((splitChar '/' p).dropLast).foldl
    (fun acc q => (if q ≠ [] then acc ++ q else acc) ++ ['/']) []

/-- Linear voxel index of grid position (i, j, k): x fastest-varying. -/
def toIvox (nx ny i j k : Nat) : Nat := i + j * nx + k * (nx * ny)

/-- Inverse of the linear voxel index, as computed in the source's fill
loops: i = ivox mod nx, j = (ivox div nx) mod ny, k = ivox div (nx ny). -/
def fromIvox (nx ny v : Nat) : Nat × Nat × Nat :=
  (v % nx, (v / nx) % ny, v / (nx * ny))

/-- The fill loop shared by read_image and reconstruct: walk the flat
array, writing element number base + t into the 3D position decoded from
its index.  Later writes overwrite earlier ones, as in the source. -/
def fillLoopFrom {α : Type} (nx ny : Nat) (base : Nat) (ws : List α)
    (img : Nat × Nat × Nat → α) : Nat × Nat × Nat → α :=
  match ws with
  | [] => img
  | w :: rest =>
      fillLoopFrom nx ny (base + 1) rest
        (fun p => if p = fromIvox nx ny base then w else img p)

/-- Fill a 3D image from a flat array starting at index 0. -/
def fillImage {α : Type} (nx ny : Nat) (ws : List α)
    (img : Nat × Nat × Nat → α) : Nat × Nat × Nat → α :=
  fillLoopFrom nx ny 0 ws img

/-- A sensitivity matrix: a 3D numpy array, its shape plus its entries. -/
structure SMatrix where
  nx : Nat
  ny : Nat
  nz : Nat
  data : Nat → Nat → Nat → ℚ

/-- One first-axis row of an SMatrix at fixed (j, k). -/
def rowF (s : SMatrix) (j k : Nat) : List ℚ :=
  (List.range s.nx).map (fun i => s.data i j k)

/-- Concatenation of the blocks f 0, f 1, ..., f (n-1) in order. -/
def catBlocks (f : Nat → List ℚ) : Nat → List ℚ
  | 0 => []
  | n + 1 => catBlocks f n ++ f n

/-- One first-two-axes plane of an SMatrix at fixed k, first axis fastest. -/
def planeF (s : SMatrix) (k : Nat) : List ℚ :=
  catBlocks (fun j => rowF s j k) s.ny

/-- numpy flatten with order F (column-major): traversal with the first
axis fastest and the last axis slowest. -/
def SMatrix.flatF (s : SMatrix) : List ℚ :=
  catBlocks (fun k => planeF s k) s.nz

/-- The all-ones sensitivity matrix of shape (nxy, nxy, nz). -/
def onesMatrix (nxy nz : Nat) : SMatrix :=
  ⟨nxy, nxy, nz, fun _ _ _ => 1⟩

/-- Observable side effects of the wrapper methods. -/
inductive Effect where
  | printNotice
  | printReadBytes (n : Nat)
  | printErrorDataLength (n : Nat)
  | printErrorFileNotFound
  | printErrorLorLengths
  | printErrorSmatrixDims
  | printPathError
  | exitCall (code : Nat)
  | engineCall
  deriving DecidableEq

/-- A voxel value of the image returned by read_image: either the initial
zero from np.zeros, or the 4 raw bytes of a float read from the file. -/
inductive Pix where
  | zero
  | val (chunk : List Nat)
  deriving DecidableEq

/-- The all-zero image created by np.zeros in read_image. -/
def zeroImage : Nat × Nat × Nat → Pix := fun _ => Pix.zero

/-- The all-zero image created by np.zeros in reconstruct. -/
def zeroImgQ : Nat × Nat × Nat → ℚ := fun _ => 0

/-- The state held by an MLEMReconstructor instance. -/
structure MLEMState where
  pfx : Str
  niterations : Int
  save_every : Int
  TOF : Bool
  TOF_resolution : ℚ
  img_size_xy : ℚ
  img_size_z : ℚ
  img_nvoxels_xy : Nat
  img_nvoxels_z : Nat
  smatrix : SMatrix

/-- MLEMReconstructor.__init__: stores the configuration.  As in the
source, the TOF attribute is assigned the literal True, and a missing
sensitivity matrix is replaced by an all-ones matrix together with a
printed notice. -/
def mkReconstructor (p : Str) (niterations save_every : Int) (TOF : Bool)
    (TOF_resolution img_size_xy img_size_z : ℚ)
    (img_nvoxels_xy img_nvoxels_z : Nat) (smatrix : Option SMatrix) :
    MLEMState × List Effect :=
  match smatrix with
  | none =>
      (⟨p, niterations, save_every, true, TOF_resolution, img_size_xy,
        img_size_z, img_nvoxels_xy, img_nvoxels_z,
        onesMatrix img_nvoxels_xy img_nvoxels_z⟩, [Effect.printNotice])
  | some m =>
      (⟨p, niterations, save_every, true, TOF_resolution, img_size_xy,
        img_size_z, img_nvoxels_xy, img_nvoxels_z, m⟩, [])

/-- The checkpoint file name: the stem followed by the iteration number
and the raw suffix. -/
def rawFileName (p : Str) (niter : Int) : Str :=
  p ++ (toString niter).data ++ ".raw".data

/-- struct.unpack of consecutive 4-byte floats: group the bytes in
chunks of four. -/
def chunk4 : List Nat → List (List Nat)
  | b0 :: b1 :: b2 :: b3 :: rest => [b0, b1, b2, b3] :: chunk4 rest
  | _ => []

/-- MLEMReconstructor.read_image: build an all-zero image, then, when
the file exists and holds exactly nx ny nz 4-byte floats, fill the image
from the flat data; otherwise print an error and return the zero image
unchanged. -/
def read_image (st : MLEMState) (fsRead : Str → Option (List Nat))
    (niter : Int) : (Nat × Nat × Nat → Pix) × List Effect :=
  match fsRead (rawFileName st.pfx niter) with
  | some fdata =>
      if fdata.length =
          st.img_nvoxels_xy * st.img_nvoxels_xy * st.img_nvoxels_z * 4 then
        (fillImage st.img_nvoxels_xy st.img_nvoxels_xy
           ((chunk4 fdata).map Pix.val) zeroImage,
         [Effect.printReadBytes fdata.length])
      else
        (zeroImage,
         [Effect.printReadBytes fdata.length,
          Effect.printErrorDataLength fdata.length])
  | none => (zeroImage, [Effect.printErrorFileNotFound])

/-- The argument record handed to the C function MLEM_TOF_Reco. -/
structure EngineArgs where
  niterations : Int
  TOF : Bool
  TOF_resolution : ℚ
  img_size_xy : ℚ
  img_size_z : ℚ
  img_nvoxels_xy : Nat
  img_nvoxels_z : Nat
  ncoinc : Nat
  x1 : List ℚ
  y1 : List ℚ
  z1 : List ℚ
  t1 : List ℚ
  x2 : List ℚ
  y2 : List ℚ
  z2 : List ℚ
  t2 : List ℚ
  smat : List ℚ
  pfx : Str
  save_every : Int

/-- Total voxel count of the configured grid. -/
def nvoxelsOf (st : MLEMState) : Nat :=
  st.img_nvoxels_xy * st.img_nvoxels_xy * st.img_nvoxels_z

/-- The LOR length validation: all eight arrays share the length of the
first one. -/
def lorLengthsOk (x1 y1 z1 t1 x2 y2 z2 t2 : List ℚ) : Bool :=
  (y1.length == x1.length) && (z1.length == x1.length) &&
  (t1.length == x1.length) && (x2.length == x1.length) &&
  (y2.length == x1.length) && (z2.length == x1.length) &&
  (t2.length == x1.length)

/-- The arguments reconstruct passes to the engine: the stored
configuration, the LOR arrays, and the column-major flattening of the
sensitivity matrix. -/
def mkEngineArgs (st : MLEMState) (x1 y1 z1 t1 x2 y2 z2 t2 : List ℚ) :
    EngineArgs :=
  ⟨st.niterations, st.TOF, st.TOF_resolution, st.img_size_xy,
   st.img_size_z, st.img_nvoxels_xy, st.img_nvoxels_z, x1.length,
   x1, y1, z1, t1, x2, y2, z2, t2, SMatrix.flatF st.smatrix, st.pfx,
   st.save_every⟩

/-- The 3D image reconstruct builds from the flat engine output. -/
def engineImage (st : MLEMState) (engine : EngineArgs → Nat → ℚ)
    (args : EngineArgs) : Nat × Nat × Nat → ℚ :=
  fillImage st.img_nvoxels_xy st.img_nvoxels_xy
    ((List.range (nvoxelsOf st)).map (engine args)) zeroImgQ

/-- The outcome of a reconstruct call: process exit, a returned None, or
a returned image together with the arguments the engine was called on. -/
inductive RecoOutcome where
  | exitCode (code : Nat)
  | noneReturn
  | image (args : EngineArgs) (img : Nat × Nat × Nat → ℚ)

/-- MLEMReconstructor.reconstruct: check that the directory derived from
the output stem exists (otherwise print and exit 1), that the eight LOR
arrays have equal lengths (otherwise print and return None), and that
the flattened sensitivity matrix has nx ny nz entries (otherwise print
and return None); then call the engine and fill the returned image. -/
def reconstruct (st : MLEMState) (fsExistsDir : Str → Bool)
    (engine : EngineArgs → Nat → ℚ)
    (x1 y1 z1 t1 x2 y2 z2 t2 : List ℚ) : RecoOutcome × List Effect :=
  if fsExistsDir (folderPath st.pfx) then
    if lorLengthsOk x1 y1 z1 t1 x2 y2 z2 t2 then
      if (SMatrix.flatF st.smatrix).length = nvoxelsOf st then
        (RecoOutcome.image (mkEngineArgs st x1 y1 z1 t1 x2 y2 z2 t2)
           (engineImage st engine (mkEngineArgs st x1 y1 z1 t1 x2 y2 z2 t2)),
         [Effect.engineCall])
      else (RecoOutcome.noneReturn, [Effect.printErrorSmatrixDims])
    else (RecoOutcome.noneReturn, [Effect.printErrorLorLengths])
  else
    (RecoOutcome.exitCode 1, [Effect.printPathError, Effect.exitCall 1])

/-- A reconstructor on a 1 by 1 by 1 grid with an empty output stem. -/
def stMini : MLEMState :=
  ⟨[], 1, -1, true, 200, 180, 180, 1, 1, onesMatrix 1 1⟩

/-- A reconstructor with the default output stem and grid. -/
def stM : MLEMState :=
  ⟨['m', 'l', 'e', 'm'], 1, -1, true, 200, 180, 180, 60, 60,
   onesMatrix 60 60⟩

/-- A reconstructor whose sensitivity matrix has the wrong element
count for its 1 by 1 by 1 grid. -/
def stBad : MLEMState :=
  ⟨[], 1, -1, true, 200, 180, 180, 1, 1, onesMatrix 2 1⟩

/-- A reconstructor whose sensitivity matrix has shape (4, 2, 1), which
differs from its (2, 2, 2) grid but has the same element count. -/
def stShape : MLEMState :=
  ⟨[], 1, -1, true, 200, 180, 180, 2, 2, ⟨4, 2, 1, fun _ _ _ => 1⟩⟩

/-- A trivial stand-in for the external engine. -/
def eng0 : EngineArgs → Nat → ℚ := fun _ _ => 0

/-- A concrete flat array of eight voxel values. -/
def l8 : List ℚ := [3, 1, 4, 1, 5, 9, 2, 6]

lemma toIvox_fromIvox (nx ny v : Nat) :
    toIvox nx ny (v % nx) ((v / nx) % ny) (v / (nx * ny)) = v := by
  unfold toIvox
  rw [← Nat.div_div_eq_div_mul]
  conv_rhs => rw [← Nat.mod_add_div v nx, ← Nat.mod_add_div (v / nx) ny]
  ring

lemma fromIvox_inj (nx ny a b : Nat)
    (h : fromIvox nx ny a = fromIvox nx ny b) : a = b := by
  unfold fromIvox at h
  rw [Prod.mk.injEq, Prod.mk.injEq] at h
  obtain ⟨h1, h2, h3⟩ := h
  calc a = toIvox nx ny (a % nx) ((a / nx) % ny) (a / (nx * ny)) :=
        (toIvox_fromIvox nx ny a).symm
    _ = toIvox nx ny (b % nx) ((b / nx) % ny) (b / (nx * ny)) := by
        rw [h1, h2, h3]
    _ = b := toIvox_fromIvox nx ny b

lemma fromIvox_toIvox (nx ny i j k : Nat) (hi : i < nx) (hj : j < ny) :
    fromIvox nx ny (toIvox nx ny i j k) = (i, j, k) := by
  have hx : 0 < nx := Nat.lt_of_le_of_lt (Nat.zero_le i) hi
  have hy : 0 < ny := Nat.lt_of_le_of_lt (Nat.zero_le j) hj
  have key : toIvox nx ny i j k = i + (j + k * ny) * nx := by
    unfold toIvox; ring
  have h2 : (i + (j + k * ny) * nx) / nx = j + k * ny := by
    rw [Nat.add_mul_div_right _ _ hx, Nat.div_eq_of_lt hi, Nat.zero_add]
  have h1 : (i + (j + k * ny) * nx) % nx = i := by
    rw [Nat.add_mul_mod_self_right, Nat.mod_eq_of_lt hi]
  have h4 : (i + (j + k * ny) * nx) / nx % ny = j := by
    rw [h2, Nat.add_mul_mod_self_right, Nat.mod_eq_of_lt hj]
  have h3 : (i + (j + k * ny) * nx) / (nx * ny) = k := by
    rw [← Nat.div_div_eq_div_mul, h2, Nat.add_mul_div_right _ _ hy,
      Nat.div_eq_of_lt hj, Nat.zero_add]
  unfold fromIvox
  rw [key, h1, h3, h4]

lemma fillLoopFrom_unchanged {α : Type} (nx ny : Nat) (ws : List α)
    (base : Nat) (img : Nat × Nat × Nat → α) (p : Nat × Nat × Nat)
    (h : ∀ t, t < ws.length → fromIvox nx ny (base + t) ≠ p) :
    fillLoopFrom nx ny base ws img p = img p := by
  induction ws generalizing base img with
  | nil => rfl
  | cons w rest ih =>
      have hrest : ∀ t, t < rest.length →
          fromIvox nx ny (base + 1 + t) ≠ p := by
        intro t ht
        have := h (t + 1) (by simpa using Nat.succ_lt_succ ht)
        rwa [show base + (t + 1) = base + 1 + t by ring] at this
      have h0 : fromIvox nx ny base ≠ p := by
        simpa using h 0 (Nat.succ_pos rest.length)
      show fillLoopFrom nx ny (base + 1) rest
        (fun q => if q = fromIvox nx ny base then w else img q) p = img p
      rw [ih (base + 1) _ hrest]
      exact if_neg (fun hh => h0 hh.symm)

lemma fillLoopFrom_get {α : Type} (nx ny : Nat) (ws : List α)
    (base : Nat) (img : Nat × Nat × Nat → α) (t : Nat) (d : α)
    (ht : t < ws.length) :
    fillLoopFrom nx ny base ws img (fromIvox nx ny (base + t)) =
      ws.getD t d := by
  induction ws generalizing base img t with
  | nil => exact absurd ht (Nat.not_lt_zero t)
  | cons w rest ih =>
      cases t with
      | zero =>
          show fillLoopFrom nx ny (base + 1) rest
            (fun q => if q = fromIvox nx ny base then w else img q)
            (fromIvox nx ny (base + 0)) = w
          rw [Nat.add_zero]
          rw [fillLoopFrom_unchanged nx ny rest (base + 1) _ _
            (fun u hu hh => by
              have := fromIvox_inj nx ny (base + 1 + u) base hh
              omega)]
          exact if_pos rfl
      | succ t' =>
          show fillLoopFrom nx ny (base + 1) rest
            (fun q => if q = fromIvox nx ny base then w else img q)
            (fromIvox nx ny (base + (t' + 1))) = rest.getD t' d
          rw [show base + (t' + 1) = base + 1 + t' by ring]
          exact ih (base + 1) _ t' (Nat.lt_of_succ_lt_succ ht)

lemma fillImage_get {α : Type} (nx ny : Nat) (ws : List α)
    (img : Nat × Nat × Nat → α) (i j k : Nat) (d : α)
    (hi : i < nx) (hj : j < ny) (hlt : toIvox nx ny i j k < ws.length) :
    fillImage nx ny ws img (i, j, k) = ws.getD (toIvox nx ny i j k) d := by
  have := fillLoopFrom_get nx ny ws 0 img (toIvox nx ny i j k) d hlt
  rw [Nat.zero_add, fromIvox_toIvox nx ny i j k hi hj] at this
  exact this

lemma catBlocks_length (f : Nat → List ℚ) (L : Nat)
    (hf : ∀ m, (f m).length = L) (n : Nat) :
    (catBlocks f n).length = n * L := by
  induction n with
  | zero => simp [catBlocks]
  | succ m ih => simp [catBlocks, ih, hf, Nat.succ_mul]

lemma catBlocks_getD (f : Nat → List ℚ) (L : Nat)
    (hf : ∀ m, (f m).length = L) (n q r : Nat) (hq : q < n) (hr : r < L) :
    (catBlocks f n).getD (q * L + r) 0 = (f q).getD r 0 := by
  induction n with
  | zero => exact absurd hq (Nat.not_lt_zero q)
  | succ m ih =>
      by_cases hqm : q < m
      · have hlen : (catBlocks f m).length = m * L := catBlocks_length f L hf m
        have hmul : (q + 1) * L ≤ m * L :=
          Nat.mul_le_mul_right L (Nat.succ_le_of_lt hqm)
        have hone : (q + 1) * L = q * L + L := Nat.succ_mul q L
        have hidx : q * L + r < (catBlocks f m).length := by
          rw [hlen]; omega
        show ((catBlocks f m) ++ f m).getD (q * L + r) 0 = (f q).getD r 0
        rw [List.getD_append _ _ _ _ hidx]
        exact ih hqm
      · have hq' : q = m := by omega
        subst hq'
        have hlen : (catBlocks f q).length = q * L := catBlocks_length f L hf q
        show ((catBlocks f q) ++ f q).getD (q * L + r) 0 = (f q).getD r 0
        rw [List.getD_append_right _ _ _ _ (by rw [hlen]; omega)]
        rw [hlen, Nat.add_sub_cancel_left]

lemma rowF_length (s : SMatrix) (j k : Nat) : (rowF s j k).length = s.nx := by
  simp [rowF]

lemma planeF_length (s : SMatrix) (k : Nat) :
    (planeF s k).length = s.ny * s.nx :=
  catBlocks_length _ s.nx (fun m => rowF_length s m k) s.ny

lemma rowF_getD (s : SMatrix) (j k i : Nat) (hi : i < s.nx) :
    (rowF s j k).getD i 0 = s.data i j k := by
  unfold rowF
  rw [List.getD_eq_getElem _ _ (by simpa using hi)]
  simp

lemma flatF_getD (s : SMatrix) (i j k : Nat)
    (hi : i < s.nx) (hj : j < s.ny) (hk : k < s.nz) :
    s.flatF.getD (toIvox s.nx s.ny i j k) 0 = s.data i j k := by
  have hin : j * s.nx + i < s.ny * s.nx := by
    have h1 : j * s.nx + i < (j + 1) * s.nx := by
      rw [Nat.succ_mul]; omega
    have h2 : (j + 1) * s.nx ≤ s.ny * s.nx :=
      Nat.mul_le_mul_right s.nx (Nat.succ_le_of_lt hj)
    omega
  have key : toIvox s.nx s.ny i j k =
      k * (s.ny * s.nx) + (j * s.nx + i) := by
    unfold toIvox; ring
  rw [key]
  unfold SMatrix.flatF
  rw [catBlocks_getD _ (s.ny * s.nx) (fun m => planeF_length s m)
    s.nz k (j * s.nx + i) hk hin]
  unfold planeF
  rw [catBlocks_getD _ s.nx (fun m => rowF_length s m k) s.ny j i hj hi]
  exact rowF_getD s j k i hi

lemma splitChar_no_sep (c : Char) (l : List Char) (h : c ∉ l) :
    splitChar c l = [l] := by
  induction l with
  | nil => rfl
  | cons a as ih =>
      have hac : ¬ a = c := fun hh => h (hh ▸ List.mem_cons_self a as)
      have has : c ∉ as := fun hh => h (List.mem_cons_of_mem a hh)
      simp [splitChar, hac, ih has]

/-- Claim C1: the constructor stores and uses the TOF flag it was given,
so constructing with TOF disabled yields a reconstruction with time
weighting disabled.  The code instead assigns the literal True to the
stored TOF attribute, ignoring the parameter: constructing with the flag
false still stores true, for every combination of the other arguments. -/
theorem C1_tof_param_ignored :
    (mkReconstructor ['m', 'l', 'e', 'm'] 1 (-1) false 200 180 180 60 60
      none).1.TOF = true ∧
    ∀ (b : Bool) (p : Str) (ni se : Int) (tr sx sz : ℚ) (nxy nz : Nat)
      (sm : Option SMatrix),
      (mkReconstructor p ni se b tr sx sz nxy nz sm).1.TOF = true :=
  ⟨rfl, fun b p ni se tr sx sz nxy nz sm => by cases sm <;> rfl⟩

/-- Claim C8: when no sensitivity matrix is supplied, the constructor
defaults it to the all-ones matrix of shape (nxy, nxy, nz) and prints an
informational notice; when one is supplied, it is stored unchanged and
no notice is printed. -/
theorem C8_default_smatrix (p : Str) (ni se : Int) (b : Bool)
    (tr sx sz : ℚ) (nxy nz : Nat) (m : SMatrix) :
    (mkReconstructor p ni se b tr sx sz nxy nz none).1.smatrix =
      onesMatrix nxy nz ∧
    (∀ i j k, (onesMatrix nxy nz).data i j k = 1) ∧
    (onesMatrix nxy nz).nx = nxy ∧ (onesMatrix nxy nz).ny = nxy ∧
    (onesMatrix nxy nz).nz = nz ∧
    Effect.printNotice ∈ (mkReconstructor p ni se b tr sx sz nxy nz none).2 ∧
    (mkReconstructor p ni se b tr sx sz nxy nz (some m)).1.smatrix = m ∧
    Effect.printNotice ∉ (mkReconstructor p ni se b tr sx sz nxy nz
      (some m)).2 :=
  ⟨rfl, fun _ _ _ => rfl, rfl, rfl, rfl, by simp [mkReconstructor], rfl,
   by simp [mkReconstructor]⟩

/-- Claim C6: the flat-index mapping and its inverse round-trip on every
in-range (i, j, k), and the fill loop used by read_image and reconstruct
therefore places flat element ivox at exactly the 3D position (i, j, k). -/
theorem C6_index_roundtrip (nx ny nz i j k : Nat)
    (hi : i < nx) (hj : j < ny) (hk : k < nz) (ws : List ℚ)
    (img : Nat × Nat × Nat → ℚ) (hlt : toIvox nx ny i j k < ws.length) :
    fromIvox nx ny (toIvox nx ny i j k) = (i, j, k) ∧
    fillImage nx ny ws img (i, j, k) = ws.getD (toIvox nx ny i j k) 0 :=
  ⟨fromIvox_toIvox nx ny i j k hi hj,
   fillImage_get nx ny ws img i j k 0 hi hj hlt⟩

/-- Witness for C6 on a 2 by 2 by 2 grid at position (1, 1, 1). -/
theorem C6_index_roundtrip_witness :
    ((1 < 2 ∧ toIvox 2 2 1 1 1 < l8.length) ∧
     (fromIvox 2 2 (toIvox 2 2 1 1 1) = (1, 1, 1) ∧
      fillImage 2 2 l8 zeroImgQ (1, 1, 1) =
        l8.getD (toIvox 2 2 1 1 1) 0)) :=
  ⟨⟨by decide, by decide⟩,
   C6_index_roundtrip 2 2 2 1 1 1 (by decide) (by decide) (by decide)
     l8 zeroImgQ (by decide)⟩

/-- Claim C2 counterexample: on a 1 by 1 by 1 grid, a stored file of 5
bytes (instead of 4) makes read_image print the data-length error and
then return the all-zero image to the caller, rather than failing with a
size-mismatch error. -/
theorem C2_counterexample :
    (read_image stMini (fun _ => some [0, 0, 0, 0, 0]) 0).1 = zeroImage ∧
    (read_image stMini (fun _ => some [0, 0, 0, 0, 0]) 0).2 =
      [Effect.printReadBytes 5, Effect.printErrorDataLength 5] :=
  ⟨rfl, rfl⟩

/-- Claim C2 as amended: when the stored file's byte length differs from
nx ny nz times 4, read_image prints a data-length error and returns the
all-zero image of the full grid shape; it never returns a partially
filled image, and no error value reaches the caller. -/
theorem C2_size_mismatch_zeros (st : MLEMState)
    (fsRead : Str → Option (List Nat)) (niter : Int) (bs : List Nat)
    (hfs : fsRead (rawFileName st.pfx niter) = some bs)
    (hlen : bs.length ≠
      st.img_nvoxels_xy * st.img_nvoxels_xy * st.img_nvoxels_z * 4) :
    (read_image st fsRead niter).1 = zeroImage ∧
    Effect.printErrorDataLength bs.length ∈ (read_image st fsRead niter).2 := by
  unfold read_image
  rw [hfs]
  simp [hlen]

/-- Witness for the amended C2 at the concrete 5-byte file. -/
theorem C2_size_mismatch_zeros_witness :
    ((fun _ => some [0, 0, 0, 0, 0] : Str → Option (List Nat))
        (rawFileName stMini.pfx 0) = some [0, 0, 0, 0, 0] ∧
     ([0, 0, 0, 0, 0] : List Nat).length ≠
       stMini.img_nvoxels_xy * stMini.img_nvoxels_xy *
         stMini.img_nvoxels_z * 4) ∧
    ((read_image stMini (fun _ => some [0, 0, 0, 0, 0]) 0).1 = zeroImage ∧
     Effect.printErrorDataLength ([0, 0, 0, 0, 0] : List Nat).length ∈
       (read_image stMini (fun _ => some [0, 0, 0, 0, 0]) 0).2) :=
  ⟨⟨rfl, by decide⟩,
   C2_size_mismatch_zeros stMini (fun _ => some [0, 0, 0, 0, 0]) 0
     [0, 0, 0, 0, 0] rfl (by decide)⟩

/-- Claim C10: read_image is total over iteration numbers; whenever the
file is absent or its byte length is unexpected, it returns the all-zero
image of shape (nxy, nxy, nz), indistinguishable from a genuinely
all-zero reconstruction, instead of signalling an error to the caller. -/
theorem C10_read_image_total_zeros (st : MLEMState)
    (fsRead : Str → Option (List Nat)) (niter : Int)
    (h : Option.all
        (fun bs => bs.length !=
          st.img_nvoxels_xy * st.img_nvoxels_xy * st.img_nvoxels_z * 4)
        (fsRead (rawFileName st.pfx niter)) = true) :
    (read_image st fsRead niter).1 = zeroImage := by
  unfold read_image
  cases hb : fsRead (rawFileName st.pfx niter) with
  | none => rfl
  | some bs =>
      rw [hb] at h
      simp [Option.all] at h
      simp [h]

/-- Witness for C10 at an absent file. -/
theorem C10_read_image_total_zeros_witness :
    (Option.all
        (fun bs => bs.length !=
          stMini.img_nvoxels_xy * stMini.img_nvoxels_xy *
            stMini.img_nvoxels_z * 4)
        ((fun _ => none : Str → Option (List Nat))
          (rawFileName stMini.pfx 0)) = true) ∧
    (read_image stMini (fun _ => none) 0).1 = zeroImage :=
  ⟨rfl, C10_read_image_total_zeros stMini (fun _ => none) 0 rfl⟩

/-- Claim C3 counterexample: with a non-existent output directory,
reconstruct does not return an error value to the caller; it prints to
stderr and terminates the process with exit code 1. -/
theorem C3_counterexample :
    reconstruct stMini (fun _ => false) eng0 [] [] [] [] [] [] [] [] =
      (RecoOutcome.exitCode 1,
       [Effect.printPathError, Effect.exitCall 1]) ∧
    (reconstruct stMini (fun _ => false) eng0 [] [] [] [] [] [] [] []).1 ≠
      RecoOutcome.noneReturn :=
  ⟨rfl, fun h => by
    rw [show (reconstruct stMini (fun _ => false) eng0
        [] [] [] [] [] [] [] []).1 = RecoOutcome.exitCode 1 from rfl] at h
    exact RecoOutcome.noConfusion h⟩

/-- Claim C3 as amended: whenever the directory derived from the output
stem does not exist, reconstruct prints a path error and aborts the
process with exit code 1 before any validation, engine call or
iteration; it does not auto-create the directory and produces no silent
empty result. -/
theorem C3_missing_dir_exits (st : MLEMState) (fsExistsDir : Str → Bool)
    (engine : EngineArgs → Nat → ℚ) (x1 y1 z1 t1 x2 y2 z2 t2 : List ℚ)
    (h : fsExistsDir (folderPath st.pfx) = false) :
    reconstruct st fsExistsDir engine x1 y1 z1 t1 x2 y2 z2 t2 =
      (RecoOutcome.exitCode 1,
       [Effect.printPathError, Effect.exitCall 1]) := by
  simp [reconstruct, h]

/-- Witness for the amended C3 with an always-absent directory. -/
theorem C3_missing_dir_exits_witness :
    ((fun _ => false : Str → Bool) (folderPath stMini.pfx) = false) ∧
    reconstruct stMini (fun _ => false) eng0 [] [] [] [] [] [] [] [] =
      (RecoOutcome.exitCode 1,
       [Effect.printPathError, Effect.exitCall 1]) :=
  ⟨rfl, C3_missing_dir_exits stMini (fun _ => false) eng0
    [] [] [] [] [] [] [] [] rfl⟩

/-- Claim C4: whenever the eight LOR arrays do not all have the same
length and the output directory check passes, reconstruct prints a
validation error and returns None before any voxel computation and
without invoking the engine: its effect trace is exactly the one error
print. -/
theorem C4_lor_length_validation (st : MLEMState)
    (fsExistsDir : Str → Bool) (engine : EngineArgs → Nat → ℚ)
    (x1 y1 z1 t1 x2 y2 z2 t2 : List ℚ)
    (hdir : fsExistsDir (folderPath st.pfx) = true)
    (hlen : lorLengthsOk x1 y1 z1 t1 x2 y2 z2 t2 = false) :
    reconstruct st fsExistsDir engine x1 y1 z1 t1 x2 y2 z2 t2 =
      (RecoOutcome.noneReturn, [Effect.printErrorLorLengths]) ∧
    Effect.engineCall ∉
      (reconstruct st fsExistsDir engine x1 y1 z1 t1 x2 y2 z2 t2).2 := by
  have h : reconstruct st fsExistsDir engine x1 y1 z1 t1 x2 y2 z2 t2 =
      (RecoOutcome.noneReturn, [Effect.printErrorLorLengths]) := by
    simp [reconstruct, hdir, hlen]
  exact ⟨h, by rw [h]; simp⟩

/-- Witness for C4 with a one-element x1 array against empty others. -/
theorem C4_lor_length_validation_witness :
    ((fun _ => true : Str → Bool) (folderPath stMini.pfx) = true ∧
     lorLengthsOk [0] [] [] [] [] [] [] [] = false) ∧
    (reconstruct stMini (fun _ => true) eng0 [0] [] [] [] [] [] [] [] =
       (RecoOutcome.noneReturn, [Effect.printErrorLorLengths]) ∧
     Effect.engineCall ∉
       (reconstruct stMini (fun _ => true) eng0 [0] [] [] [] [] [] [] []).2) :=
  ⟨⟨rfl, by decide⟩,
   C4_lor_length_validation stMini (fun _ => true) eng0
     [0] [] [] [] [] [] [] [] rfl (by decide)⟩

/-- Claim C5 counterexample: a sensitivity matrix of shape (4, 2, 1) on
a (2, 2, 2) grid has a different shape but the same element count eight,
so reconstruct does not return an error: it invokes the engine on the
wrongly-shaped volume. -/
theorem C5_counterexample :
    (reconstruct stShape (fun _ => true) eng0 [] [] [] [] [] [] [] []).2 =
      [Effect.engineCall] ∧
    (stShape.smatrix.nx, stShape.smatrix.ny, stShape.smatrix.nz) ≠
      (stShape.img_nvoxels_xy, stShape.img_nvoxels_xy,
       stShape.img_nvoxels_z) :=
  ⟨rfl, by decide⟩

/-- Claim C5 as amended: reconstruct prints an error and returns None
before invoking the engine whenever the flattened sensitivity matrix's
element count differs from nx ny nz; a matrix whose shape differs from
the grid but whose element count matches is passed on to the engine. -/
theorem C5_smatrix_count_validation (st : MLEMState)
    (fsExistsDir : Str → Bool) (engine : EngineArgs → Nat → ℚ)
    (x1 y1 z1 t1 x2 y2 z2 t2 : List ℚ)
    (hdir : fsExistsDir (folderPath st.pfx) = true)
    (hlor : lorLengthsOk x1 y1 z1 t1 x2 y2 z2 t2 = true)
    (hcnt : (SMatrix.flatF st.smatrix).length ≠ nvoxelsOf st) :
    reconstruct st fsExistsDir engine x1 y1 z1 t1 x2 y2 z2 t2 =
      (RecoOutcome.noneReturn, [Effect.printErrorSmatrixDims]) ∧
    Effect.engineCall ∉
      (reconstruct st fsExistsDir engine x1 y1 z1 t1 x2 y2 z2 t2).2 := by
  have h : reconstruct st fsExistsDir engine x1 y1 z1 t1 x2 y2 z2 t2 =
      (RecoOutcome.noneReturn, [Effect.printErrorSmatrixDims]) := by
    simp [reconstruct, hdir, hlor, hcnt]
  exact ⟨h, by rw [h]; simp⟩

/-- Witness for the amended C5: an all-ones 2 by 2 by 1 matrix on a
1 by 1 by 1 grid. -/
theorem C5_smatrix_count_validation_witness :
    ((fun _ => true : Str → Bool) (folderPath stBad.pfx) = true ∧
     lorLengthsOk [] [] [] [] [] [] [] [] = true ∧
     (SMatrix.flatF stBad.smatrix).length ≠ nvoxelsOf stBad) ∧
    reconstruct stBad (fun _ => true) eng0 [] [] [] [] [] [] [] [] =
      (RecoOutcome.noneReturn, [Effect.printErrorSmatrixDims]) :=
  ⟨⟨rfl, by decide, by decide⟩,
   (C5_smatrix_count_validation stBad (fun _ => true) eng0
     [] [] [] [] [] [] [] [] rfl (by decide) (by decide)).1⟩

/-- Claim C7: the sensitivity volume reaches the engine in the same
linear-index convention as the image estimate: when reconstruct calls
the engine and the stored matrix has the grid's shape, entry
i + j nx + k nx ny of the flattened array handed over equals
smatrix[i, j, k] for every in-range (i, j, k). -/
theorem C7_smat_linear_convention (st : MLEMState)
    (fsExistsDir : Str → Bool) (engine : EngineArgs → Nat → ℚ)
    (x1 y1 z1 t1 x2 y2 z2 t2 : List ℚ) (args : EngineArgs)
    (img : Nat × Nat × Nat → ℚ) (effs : List Effect)
    (hrun : reconstruct st fsExistsDir engine x1 y1 z1 t1 x2 y2 z2 t2 =
      (RecoOutcome.image args img, effs))
    (hnx : st.smatrix.nx = st.img_nvoxels_xy)
    (hny : st.smatrix.ny = st.img_nvoxels_xy)
    (hnz : st.smatrix.nz = st.img_nvoxels_z)
    (i j k : Nat) (hi : i < st.img_nvoxels_xy)
    (hj : j < st.img_nvoxels_xy) (hk : k < st.img_nvoxels_z) :
    args.smat.getD
      (toIvox st.img_nvoxels_xy st.img_nvoxels_xy i j k) 0 =
      st.smatrix.data i j k := by
  unfold reconstruct at hrun
  by_cases h1 : fsExistsDir (folderPath st.pfx)
  · rw [if_pos h1] at hrun
    by_cases h2 : lorLengthsOk x1 y1 z1 t1 x2 y2 z2 t2
    · rw [if_pos h2] at hrun
      by_cases h3 : (SMatrix.flatF st.smatrix).length = nvoxelsOf st
      · rw [if_pos h3] at hrun
        rw [Prod.mk.injEq] at hrun
        obtain ⟨hargs, -⟩ := hrun
        injection hargs with ha hb
        have hsmat : args.smat = SMatrix.flatF st.smatrix := by
          rw [← ha]
          rfl
        rw [hsmat]
        rw [show toIvox st.img_nvoxels_xy st.img_nvoxels_xy i j k =
            toIvox st.smatrix.nx st.smatrix.ny i j k from by
          rw [hnx, hny]]
        exact flatF_getD st.smatrix i j k (by rw [hnx]; exact hi)
          (by rw [hny]; exact hj) (by rw [hnz]; exact hk)
      · rw [if_neg h3, Prod.mk.injEq] at hrun
        exact absurd hrun.1 (fun hh => RecoOutcome.noConfusion hh)
    · rw [if_neg h2, Prod.mk.injEq] at hrun
      exact absurd hrun.1 (fun hh => RecoOutcome.noConfusion hh)
  · rw [if_neg h1, Prod.mk.injEq] at hrun
    exact absurd hrun.1 (fun hh => RecoOutcome.noConfusion hh)

/-- Witness for C7: a successful run on the 1 by 1 by 1 grid. -/
theorem C7_smat_linear_convention_witness :
    (reconstruct stMini (fun _ => true) eng0 [] [] [] [] [] [] [] [] =
      (RecoOutcome.image (mkEngineArgs stMini [] [] [] [] [] [] [] [])
        (engineImage stMini eng0
          (mkEngineArgs stMini [] [] [] [] [] [] [] [])),
       [Effect.engineCall]) ∧
     stMini.smatrix.nx = stMini.img_nvoxels_xy ∧ 0 < 1) ∧
    (mkEngineArgs stMini [] [] [] [] [] [] [] []).smat.getD
      (toIvox stMini.img_nvoxels_xy stMini.img_nvoxels_xy 0 0 0) 0 =
      stMini.smatrix.data 0 0 0 :=
  ⟨⟨rfl, rfl, by decide⟩,
   C7_smat_linear_convention stMini (fun _ => true) eng0
     [] [] [] [] [] [] [] []
     (mkEngineArgs stMini [] [] [] [] [] [] [] [])
     (engineImage stMini eng0 (mkEngineArgs stMini [] [] [] [] [] [] [] []))
     [Effect.engineCall] rfl rfl rfl rfl 0 0 0
     (by decide) (by decide) (by decide)⟩

/-- Claim C9: for every output stem containing no separator character,
the derived directory path is the empty string, which never exists on
the file system, so reconstruct aborts with exit code 1 before any LOR
validation or computation, whatever the batch contents. -/
theorem C9_no_separator_always_exits (st : MLEMState)
    (fsExistsDir : Str → Bool) (engine : EngineArgs → Nat → ℚ)
    (x1 y1 z1 t1 x2 y2 z2 t2 : List ℚ)
    (hs : ('/' : Char) ∉ st.pfx) (hfs : fsExistsDir [] = false) :
    folderPath st.pfx = [] ∧
    reconstruct st fsExistsDir engine x1 y1 z1 t1 x2 y2 z2 t2 =
      (RecoOutcome.exitCode 1,
       [Effect.printPathError, Effect.exitCall 1]) := by
  have hfold : folderPath st.pfx = [] := by
    unfold folderPath
    rw [splitChar_no_sep '/' st.pfx hs]
    rfl
  refine ⟨hfold, ?_⟩
  simp [reconstruct, hfold, hfs]

/-- Witness for C9 with the default stem mlem. -/
theorem C9_no_separator_always_exits_witness :
    (('/' : Char) ∉ stM.pfx ∧
     (fun _ => false : Str → Bool) ([] : Str) = false) ∧
    (folderPath stM.pfx = [] ∧
     reconstruct stM (fun _ => false) eng0 [] [] [] [] [] [] [] [] =
       (RecoOutcome.exitCode 1,
        [Effect.printPathError, Effect.exitCall 1])) :=
  ⟨⟨by decide, rfl⟩,
   C9_no_separator_always_exits stM (fun _ => false) eng0
     [] [] [] [] [] [] [] [] (by decide) rfl⟩
